import Mathlib

/-!
Shallow embedding of the ConsumptieTracker ledger core (src/app/index.tsx).

Timestamps are modelled as strings; every call the code makes to `nowISO()`
consumes one value from an explicit supply (`times : Nat → String` for the
per-item calls inside `createPayment`, a separate argument for the batch),
so all real interleavings of clock readings are covered by quantification.
Item ids (`Crypto.randomUUID`) are likewise explicit arguments.
-/

namespace ConsumptieTracker

/-- The closed item-type enumeration (`type ItemType = 'Bier' | 'Fris' | 'Snoep'`). -/
inductive ItemType where
  | Bier
  | Fris
  | Snoep
  deriving DecidableEq, Repr

/-- The literal name of an item type, as the code stores and compares it. -/
def ItemType.name : ItemType → String
  | .Bier => "Bier"
  | .Fris => "Fris"
  | .Snoep => "Snoep"

/-- `type Item` from the source: uuid, type, date, priceCents, optional
userLabel, optional paidAt, optional paymentId. -/
structure Item where
  uuid : String
  type : ItemType
  date : String
  priceCents : Nat
  userLabel : Option String := none
  paidAt : Option String := none
  paymentId : Option String := none
  deriving DecidableEq, Repr

/-- `type Settings = { basePriceCents: number; currencyCode: string }`. -/
structure Settings where
  basePriceCents : Nat
  currencyCode : String
  deriving DecidableEq, Repr

/-- `type PaymentBatch = { id: string; createdAt: string; note?: string }`. -/
structure PaymentBatch where
  id : String
  createdAt : String
  note : Option String := none
  deriving DecidableEq, Repr

/-- Pricing: `type === 'Bier' ? settings.basePriceCents * 2 : settings.basePriceCents`
(the `priceCents` memo in `AddScreen`). -/
def priceFor (t : ItemType) (s : Settings) : Nat :=
  if t = ItemType.Bier then s.basePriceCents * 2 else s.basePriceCents

/-- `AddScreen.add`: builds `{ uuid, type, date: nowISO(), priceCents, userLabel }`
and prepends it to the item collection (`setItems([item, ...items])`). -/
def addItem (uuid : String) (t : ItemType) (date : String) (lbl : String)
    (s : Settings) (items : List Item) : List Item :=
  { uuid := uuid, type := t, date := date, priceCents := priceFor t s,
    userLabel := some lbl } :: items

/-- The item update inside `createPayment`:
`items.map(it => sel.find(s => s.uuid === it.uuid) ? { ...it, paidAt: nowISO(), paymentId: id } : it)`.
Each matched item consumes its own fresh `nowISO()` value, modelled as the
next entry of the supply `times`; `k` counts how many have been consumed. -/
def markPaidAt (sel : List Item) (id : String) (times : Nat → String) :
    Nat → List Item → List Item
  | _, [] => []
  | k, it :: rest =>
    if (sel.find? fun s => s.uuid == it.uuid).isSome then
      { it with paidAt := some (times k), paymentId := some id } ::
        markPaidAt sel id times (k + 1) rest
    else
      it :: markPaidAt sel id times k rest

/-- `createPayment`: makes the batch `{ id, createdAt: nowISO() }`, prepends it
to the batch collection, and maps the paid-marking update over the items. -/
def createPayment (id tBatch : String) (times : Nat → String) (sel : List Item)
    (items : List Item) (payments : List PaymentBatch) :
    List Item × List PaymentBatch :=
  (markPaidAt sel id times 0 items, { id := id, createdAt := tBatch } :: payments)

/-- The Afrekenen button: `disabled={selectedItems.length === 0}`, so the
handler `createPayment(selectedItems, ...)` only runs for a non-empty selection. -/
def afrekenen (id tBatch : String) (times : Nat → String) (sel : List Item)
    (items : List Item) (payments : List PaymentBatch) :
    List Item × List PaymentBatch :=
  if sel.length == 0 then (items, payments)
  else createPayment id tBatch times sel items payments

/-- The item update inside `PaymentsScreen.remove`:
`items.map(it => it.paymentId === p.id ? ({ ...it, paymentId: undefined, paidAt: undefined }) : it)`. -/
def clearPaid (batchId : String) (items : List Item) : List Item :=
  items.map fun it =>
    if it.paymentId == some batchId then
      { it with paymentId := none, paidAt := none }
    else it

/-- `PaymentsScreen.remove`: clears the paid fields of every item referencing
the batch, and filters the batch out of the batch collection
(`payments.filter(x => x.id !== p.id)`). -/
def removePayment (p : PaymentBatch) (items : List Item)
    (payments : List PaymentBatch) : List Item × List PaymentBatch :=
  (clearPaid p.id items, payments.filter fun x => x.id != p.id)

/-- JS `toLowerCase()`: lower-case every character of the string. -/
def toLowerStr (s : String) : String :=
  String.mk (s.data.map Char.toLower)

/-- JS `hay.includes(sub)` on the character lists of the strings. -/
def hasSubstr : List Char → List Char → Bool
  | [], sub => sub.isEmpty
  | c :: rest, sub => sub.isPrefixOf (c :: rest) || hasSubstr rest sub

/-- JS `hay.includes(sub)` for strings. -/
def strIncludes (hay sub : String) : Bool :=
  hasSubstr hay.data sub.data

/-- The predicate of the `filtered` memo in `OverviewScreen`:
`(!onlyUnpaid || !it.paidAt) && (search === '' || (it.userLabel || '').toLowerCase().includes(search.toLowerCase()) || it.type.toLowerCase().includes(search.toLowerCase()))`. -/
def filterPred (onlyUnpaid : Bool) (search : String) (it : Item) : Bool :=
  (!onlyUnpaid || it.paidAt.isNone) &&
    (search == "" ||
      strIncludes (toLowerStr (it.userLabel.getD "")) (toLowerStr search) ||
      strIncludes (toLowerStr it.type.name) (toLowerStr search))

/-- The `filtered` list of `OverviewScreen` (the sort only reorders; the
filter predicate is applied to every stored item). -/
def filterItems (items : List Item) (onlyUnpaid : Bool) (search : String) :
    List Item :=
  items.filter (filterPred onlyUnpaid search)

/-- `PaymentsScreen.totalFor`:
`items.filter(it => it.paymentId === p.id).reduce((a,b) => a + b.priceCents, 0)`. -/
def totalFor (p : PaymentBatch) (items : List Item) : Nat :=
  (items.filter fun it => it.paymentId == some p.id).foldl
    (fun a b => a + b.priceCents) 0

/-- The header row pushed first in `PaymentsScreen.shareCSV`. -/
def csvHeader : String := "type,prijs_cents,datum,user,betaald_op,batch_id"

/-- The six fields of one CSV data row, in the order the code pushes them:
`[it.type, String(it.priceCents), it.date, it.userLabel ?? '', it.paidAt ?? '', p.id]`. -/
def csvFields (p : PaymentBatch) (it : Item) : List String :=
  [it.type.name, Nat.repr it.priceCents, it.date, it.userLabel.getD "",
    it.paidAt.getD "", p.id]

/-- The data rows of `shareCSV`: one per item with `it.paymentId === p.id`. -/
def csvDataRows (p : PaymentBatch) (items : List Item) : List (List String) :=
  (items.filter fun it => it.paymentId == some p.id).map (csvFields p)

/-- `PaymentsScreen.shareCSV`: header plus comma-joined data rows, joined by
newlines (`rows.join('\n')` with `[...].join(',')` per row). -/
def shareCSV (p : PaymentBatch) (items : List Item) : String :=
  String.intercalate "\n" (csvHeader :: (csvDataRows p items).map (String.intercalate ","))

/-- `SettingsScreen.save`: the parsed cents value (`none` models NaN) is
rejected unless positive; an empty currency code falls back to "EUR"
(`code || 'EUR'`). On rejection nothing changes. -/
def settingsSave (cents : Option Int) (code : String) (s : Settings) : Settings :=
  match cents with
  | none => s
  | some c =>
    if c ≤ 0 then s
    else { basePriceCents := c.toNat, currencyCode := if code == "" then "EUR" else code }

/-- The whole app state: the three persisted collections. -/
structure AppState where
  items : List Item
  payments : List PaymentBatch
  settings : Settings
  deriving DecidableEq, Repr

/-- Initial state: no items, no batches, default settings. -/
def initState : AppState :=
  { items := [], payments := [], settings := { basePriceCents := 70, currencyCode := "EUR" } }

/-- `AddScreen.add` as a state transition. -/
def stepAdd (uuid : String) (t : ItemType) (date lbl : String) (st : AppState) : AppState :=
  { st with items := addItem uuid t date lbl st.settings st.items }

/-- `createPayment` as a state transition. -/
def stepSettle (id tBatch : String) (times : Nat → String) (sel : List Item)
    (st : AppState) : AppState :=
  { st with
    items := (createPayment id tBatch times sel st.items st.payments).1,
    payments := (createPayment id tBatch times sel st.items st.payments).2 }

/-- `PaymentsScreen.remove` as a state transition. -/
def stepReverse (p : PaymentBatch) (st : AppState) : AppState :=
  { st with
    items := (removePayment p st.items st.payments).1,
    payments := (removePayment p st.items st.payments).2 }

/-- `SettingsScreen.save` as a state transition: only the settings change. -/
def stepSaveSettings (cents : Option Int) (code : String) (st : AppState) : AppState :=
  { st with settings := settingsSave cents code st.settings }

/-- States reachable from the initial state by the app's operations. -/
inductive Reachable : AppState → Prop where
  | init : Reachable initState
  | add : ∀ uuid t date lbl st, Reachable st → Reachable (stepAdd uuid t date lbl st)
  | settle : ∀ id tBatch times sel st, Reachable st → Reachable (stepSettle id tBatch times sel st)
  | reverse : ∀ p st, Reachable st → Reachable (stepReverse p st)
  | save : ∀ cents code st, Reachable st → Reachable (stepSaveSettings cents code st)

/-- One item satisfies the paired-fields invariant: `paidAt` and `paymentId`
are both set or both absent. -/
def pairedOk (it : Item) : Bool :=
  it.paidAt.isSome == it.paymentId.isSome

/-- The paired-fields invariant over a whole item collection. -/
def invariantPaired (items : List Item) : Bool :=
  items.all pairedOk

/-- Does some item reference the given batch id? -/
def referencesBatch (id : String) (items : List Item) : Bool :=
  items.any fun it => it.paymentId == some id

/-- Is the given id absent from the batch collection? -/
def batchAbsent (id : String) (payments : List PaymentBatch) : Bool :=
  payments.all fun b => b.id != id

/-- Every item matched by the selection is fully unpaid (both fields absent). -/
def selUnpaid (sel items : List Item) : Bool :=
  items.all fun it =>
    !(sel.find? fun s => s.uuid == it.uuid).isSome ||
      (it.paidAt.isNone && it.paymentId.isNone)

/-- No item already references the candidate batch id. -/
def freshItemId (id : String) (items : List Item) : Bool :=
  items.all fun it => it.paymentId != some id

/-- No existing batch carries the candidate batch id. -/
def freshBatchId (id : String) (payments : List PaymentBatch) : Bool :=
  payments.all fun b => b.id != id

/-- Fixture: an unpaid Fris item. -/
def itemA : Item :=
  { uuid := "a", type := ItemType.Fris, date := "d1", priceCents := 70,
    userLabel := some "koen" }

/-- Fixture: an unpaid Bier item. -/
def itemB : Item :=
  { uuid := "b", type := ItemType.Bier, date := "d2", priceCents := 140,
    userLabel := some "piet" }

/-- Fixture: a paid item referencing batch id "b". -/
def itemP : Item :=
  { uuid := "x", type := ItemType.Fris, date := "d3", priceCents := 70,
    userLabel := some "mia", paidAt := some "t1", paymentId := some "b" }

/-- Fixture: a payment batch with id "b". -/
def batchB : PaymentBatch := { id := "b", createdAt := "t0" }

/-- Fixture: a deterministic timestamp supply. -/
def tstream : Nat → String := fun n => Nat.repr n

/-- Modelled from the spec: the CSV text of §4.5, with the header corrected to
the literal the code writes. One line per item referencing the batch, the six
fields in order, absent `userLabel`/`paidAt` rendered as the empty string. -/
def specRowCSV (p : PaymentBatch) (it : Item) : String :=
  it.type.name ++ "," ++ Nat.repr it.priceCents ++ "," ++ it.date ++ "," ++
    (match it.userLabel with | some s => s | none => "") ++ "," ++
    (match it.paidAt with | some s => s | none => "") ++ "," ++ p.id

/-- Modelled from the spec: full CSV document of §4.5 (header corrected to the
code's literal), built independently of `shareCSV`'s filter/map pipeline. -/
def specCSV (p : PaymentBatch) (items : List Item) : String :=
  String.intercalate "\n" ("type,prijs_cents,datum,user,betaald_op,batch_id" ::
    items.flatMap fun it => if it.paymentId = some p.id then [specRowCSV p it] else [])

/-! ## Helper lemmas -/

lemma markPaidAt_nil_sel (id : String) (times : Nat → String) :
    ∀ (k : Nat) (items : List Item), markPaidAt [] id times k items = items := by
  intro k items
  induction items generalizing k with
  | nil => rfl
  | cons it rest ih => simp [markPaidAt, List.find?, ih]

/-! ## Claim theorems -/

/-- Claim C1: for every settings value `s`, the price computed at item
creation is `s.basePriceCents` for Fris (Soda) and Snoep (Candy) and
`2 * s.basePriceCents` for Bier (Beer); with `basePriceCents = 70` a created
Bier item carries `priceCents = 140` and a created Fris item `priceCents = 70`. -/
theorem priceFor_spec :
    ∀ s : Settings,
      priceFor ItemType.Fris s = s.basePriceCents ∧
      priceFor ItemType.Snoep s = s.basePriceCents ∧
      priceFor ItemType.Bier s = 2 * s.basePriceCents ∧
      (∀ (uuid date lbl : String) (items : List Item),
        ((addItem uuid ItemType.Bier date lbl
            { basePriceCents := 70, currencyCode := "EUR" } items).head?).map
          Item.priceCents = some 140 ∧
        ((addItem uuid ItemType.Fris date lbl
            { basePriceCents := 70, currencyCode := "EUR" } items).head?).map
          Item.priceCents = some 70) := by
  intro s
  refine ⟨rfl, rfl, ?_, ?_⟩
  · simp [priceFor, Nat.mul_comm]
  · intro uuid date lbl items
    exact ⟨rfl, rfl⟩

/-- Claim C5: saving settings (any parsed cents value and currency code)
leaves the item collection — in particular every item's `priceCents` —
completely unchanged; prices are locked at creation time. -/
theorem settings_save_preserves_items :
    ∀ (cents : Option Int) (code : String) (st : AppState),
      (stepSaveSettings cents code st).items = st.items ∧
      (stepSaveSettings cents code st).items.map Item.priceCents =
        st.items.map Item.priceCents :=
  fun _ _ _ => ⟨rfl, rfl⟩

/-- Claim C7 (amended): for the empty selection, the settle button is disabled
so the operation does not run (both collections are unchanged); however
`createPayment` itself, if invoked with an empty selection, leaves the items
unchanged but still creates and prepends a new (empty) payment batch. -/
theorem settle_empty_selection (id tBatch : String) (times : Nat → String)
    (items : List Item) (payments : List PaymentBatch) :
    afrekenen id tBatch times [] items payments = (items, payments) ∧
    createPayment id tBatch times [] items payments =
      (items, { id := id, createdAt := tBatch } :: payments) := by
  constructor
  · simp [afrekenen]
  · simp [createPayment, markPaidAt_nil_sel]

/-- Claim C7 counterexample: called on the empty selection (empty collections),
`createPayment` does create a batch — the batch collection is not left
unchanged, contradicting the claim that no payment batch is created. -/
theorem settle_empty_counterexample :
    (createPayment "p1" "T" tstream [] [] []).2 ≠ ([] : List PaymentBatch) := by
  decide

lemma mem_filterItems (items : List Item) (b : Bool) (t : String) (it : Item) :
    it ∈ filterItems items b t ↔
      it ∈ items ∧ (b = true → it.paidAt = none) ∧
        (t = "" ∨
          strIncludes (toLowerStr (it.userLabel.getD "")) (toLowerStr t) = true ∨
          strIncludes (toLowerStr it.type.name) (toLowerStr t) = true) := by
  rw [filterItems, List.mem_filter]
  constructor
  · rintro ⟨hm, hp⟩
    refine ⟨hm, ?_, ?_⟩
    · intro hb
      subst hb
      simp only [filterPred, Bool.and_eq_true, Bool.or_eq_true, Bool.not_true,
        Bool.false_or] at hp
      exact Option.isNone_iff_eq_none.mp hp.1
    · have hp2 := (Bool.and_eq_true _ _).mp hp |>.2
      simpa [Bool.or_eq_true, beq_iff_eq, or_assoc] using hp2
  · rintro ⟨hm, hb, hs⟩
    refine ⟨hm, ?_⟩
    simp only [filterPred, Bool.and_eq_true, Bool.or_eq_true, beq_iff_eq]
    constructor
    · cases b with
      | false => simp
      | true => simp [Option.isNone_iff_eq_none, hb rfl]
    · simpa [or_assoc] using hs

/-- Claim C6: `filter` with `onlyUnpaid = true` returns no item with `paidAt`
set; an item passes the filter iff the search text is empty, or is a
case-insensitive substring of its label, or of its type name — the unpaid and
search predicates combined with AND. -/
theorem filter_spec (items : List Item) (b : Bool) (t : String) :
    (∀ it ∈ filterItems items true t, it.paidAt = none) ∧
    (∀ it : Item, it ∈ filterItems items b t ↔
      it ∈ items ∧ (b = true → it.paidAt = none) ∧
        (t = "" ∨
          strIncludes (toLowerStr (it.userLabel.getD "")) (toLowerStr t) = true ∨
          strIncludes (toLowerStr it.type.name) (toLowerStr t) = true)) := by
  constructor
  · intro it hit
    exact ((mem_filterItems items true t it).mp hit).2.1 rfl
  · intro it
    exact mem_filterItems items b t it

/-- Claim C6 witness: the unpaid item labelled "koen" passes the filter for
search text "KoEn" with `onlyUnpaid = true`, by the filter theorem. -/
theorem filter_spec_witness : itemA ∈ filterItems [itemA, itemP] true "KoEn" :=
  ((filter_spec [itemA, itemP] true "KoEn").2 itemA).mpr
    ⟨by decide, by decide, by decide⟩

lemma markPaidAt_forall2 (sel : List Item) (id : String) (times : Nat → String) :
    ∀ (k : Nat) (items : List Item),
      List.Forall₂ (fun it it' =>
          if (sel.find? fun s => s.uuid == it.uuid).isSome then
            ∃ t, it' = { it with paidAt := some t, paymentId := some id }
          else it' = it)
        items (markPaidAt sel id times k items) := by
  intro k items
  induction items generalizing k with
  | nil => exact List.Forall₂.nil
  | cons it rest ih =>
    by_cases h : (sel.find? fun s => s.uuid == it.uuid).isSome = true
    · rw [markPaidAt, if_pos h]
      exact List.Forall₂.cons (by rw [if_pos h]; exact ⟨times k, rfl⟩) (ih (k + 1))
    · rw [markPaidAt, if_neg h]
      exact List.Forall₂.cons (by rw [if_neg h]) (ih k)

/-- Claim C2 (amended): `createPayment` prepends exactly one new batch (fresh
id, the `nowISO` value drawn for the batch) and transforms the item collection
pointwise: an item matched by the selection gets `paymentId := some id` and
`paidAt := some t` for a timestamp `t` drawn by that item's own `nowISO()` call
(not necessarily the batch's `createdAt`), with all of its other fields
unchanged; an unmatched item is returned unchanged. -/
theorem createPayment_marks_selected (id tBatch : String) (times : Nat → String)
    (sel items : List Item) (payments : List PaymentBatch) :
    (createPayment id tBatch times sel items payments).2 =
      { id := id, createdAt := tBatch } :: payments ∧
    List.Forall₂ (fun it it' =>
        if (sel.find? fun s => s.uuid == it.uuid).isSome then
          ∃ t, it' = { it with paidAt := some t, paymentId := some id }
        else it' = it)
      items (createPayment id tBatch times sel items payments).1 :=
  ⟨rfl, markPaidAt_forall2 sel id times 0 items⟩

/-- Claim C2 witness: the batch-creation effect of the theorem evaluated at a
concrete input. -/
theorem createPayment_marks_selected_witness :
    (createPayment "p1" "T" tstream [itemA] [itemA, itemB] []).2 =
      [{ id := "p1", createdAt := "T" }] :=
  (createPayment_marks_selected "p1" "T" tstream [itemA] [itemA, itemB] []).1

/-- Claim C2 counterexample: with both items selected and the batch timestamp
"T", the claim as stated forces both settled items to carry
`paidAt = some "T"` (the single timestamp generated with the batch); the code
instead draws a fresh `nowISO()` per item, here yielding "0" and "1". -/
theorem createPayment_paidAt_counterexample :
    (createPayment "p1" "T" tstream [itemA, itemB] [itemA, itemB] []).1.map
        Item.paidAt ≠ [some "T", some "T"] := by
  decide

lemma invariantPaired_markPaidAt (sel : List Item) (id : String)
    (times : Nat → String) :
    ∀ (k : Nat) (items : List Item), invariantPaired items = true →
      invariantPaired (markPaidAt sel id times k items) = true := by
  intro k items h
  induction items generalizing k with
  | nil => exact h
  | cons it rest ih =>
    rw [invariantPaired, List.all_cons, Bool.and_eq_true] at h
    by_cases hc : (sel.find? fun s => s.uuid == it.uuid).isSome = true
    · rw [markPaidAt, if_pos hc, invariantPaired, List.all_cons]
      exact (Bool.and_eq_true _ _).mpr ⟨rfl, ih (k + 1) h.2⟩
    · rw [markPaidAt, if_neg hc, invariantPaired, List.all_cons]
      exact (Bool.and_eq_true _ _).mpr ⟨h.1, ih k h.2⟩

lemma invariantPaired_clearPaid (id : String) :
    ∀ items : List Item, invariantPaired items = true →
      invariantPaired (clearPaid id items) = true := by
  intro items h
  induction items with
  | nil => exact h
  | cons it rest ih =>
    rw [invariantPaired, List.all_cons, Bool.and_eq_true] at h
    rw [clearPaid, List.map_cons]
    by_cases hc : (it.paymentId == some id) = true
    · rw [if_pos hc, invariantPaired, List.all_cons]
      exact (Bool.and_eq_true _ _).mpr ⟨rfl, ih h.2⟩
    · rw [if_neg hc, invariantPaired, List.all_cons]
      exact (Bool.and_eq_true _ _).mpr ⟨h.1, ih h.2⟩

/-- Claim C3: in every state reachable by the app's operations (create,
settle, reverse, save settings), every item has `paidAt` and `paymentId`
either both set or both absent. -/
theorem reachable_paired (st : AppState) (h : Reachable st) :
    invariantPaired st.items = true := by
  induction h with
  | init => rfl
  | add uuid t date lbl st _ ih =>
    show invariantPaired (addItem uuid t date lbl st.settings st.items) = true
    rw [addItem, invariantPaired, List.all_cons]
    exact (Bool.and_eq_true _ _).mpr ⟨rfl, ih⟩
  | settle id tBatch times sel st _ ih =>
    exact invariantPaired_markPaidAt sel id times 0 st.items ih
  | reverse p st _ ih =>
    exact invariantPaired_clearPaid p.id st.items ih
  | save cents code st _ ih => exact ih

/-- Claim C3 witness: the invariant, via the theorem, at the concrete state
reached by creating one item and then settling it. -/
theorem reachable_paired_witness :
    invariantPaired (stepSettle "p1" "T" tstream [itemA]
      (stepAdd "a" ItemType.Fris "d1" "koen" initState)).items = true :=
  reachable_paired _
    (Reachable.settle _ _ _ _ _ (Reachable.add _ _ _ _ _ Reachable.init))

lemma item_clear_eq_self (it : Item) (hp : it.paidAt = none)
    (hq : it.paymentId = none) :
    ({ it with paidAt := none, paymentId := none } : Item) = it := by
  cases it
  simp_all

lemma clearPaid_markPaidAt (sel : List Item) (id : String) (times : Nat → String) :
    ∀ (k : Nat) (items : List Item),
      selUnpaid sel items = true → freshItemId id items = true →
      clearPaid id (markPaidAt sel id times k items) = items := by
  intro k items
  induction items generalizing k with
  | nil => intro _ _; rfl
  | cons it rest ih =>
    intro hsel hfresh
    rw [selUnpaid, List.all_cons, Bool.and_eq_true] at hsel
    rw [freshItemId, List.all_cons, Bool.and_eq_true] at hfresh
    by_cases hc : (sel.find? fun s => s.uuid == it.uuid).isSome = true
    · have hpq : it.paidAt = none ∧ it.paymentId = none := by
        have h1 := hsel.1
        rw [hc] at h1
        simpa [Option.isNone_iff_eq_none] using h1
      rw [markPaidAt, if_pos hc, clearPaid, List.map_cons, if_pos (by simp)]
      exact congrArg₂ List.cons (item_clear_eq_self it hpq.1 hpq.2)
        (ih (k + 1) hsel.2 hfresh.2)
    · rw [markPaidAt, if_neg hc, clearPaid, List.map_cons,
        if_neg (by simpa using hfresh.1)]
      exact congrArg (List.cons it) (ih k hsel.2 hfresh.2)

/-- Claim C4: settling a non-empty selection of fully unpaid items under a
fresh batch id and then reversing the created batch restores the item
collection exactly (the settled items' `paidAt`/`paymentId` back to absent)
and removes the batch, leaving the batch collection exactly as before. -/
theorem settle_then_reverse (id tBatch : String) (times : Nat → String)
    (sel items : List Item) (payments : List PaymentBatch)
    (_hne : sel ≠ [])
    (hsel : selUnpaid sel items = true)
    (hI : freshItemId id items = true)
    (hB : freshBatchId id payments = true) :
    removePayment { id := id, createdAt := tBatch }
      (createPayment id tBatch times sel items payments).1
      (createPayment id tBatch times sel items payments).2 = (items, payments) := by
  rw [removePayment, createPayment, Prod.mk.injEq]
  refine ⟨clearPaid_markPaidAt sel id times 0 items hsel hI, ?_⟩
  rw [List.filter_cons, if_neg (by simp)]
  exact List.filter_eq_self.mpr fun b hb => by
    simpa using List.all_eq_true.mp hB b hb

/-- Claim C4 witness: the round-trip theorem at a concrete input — one unpaid
item settled under fresh batch id "p1", then the batch reversed. -/
theorem settle_then_reverse_witness :
    ([itemA] : List Item) ≠ [] ∧
    selUnpaid [itemA] [itemA, itemB] = true ∧
    freshItemId "p1" [itemA, itemB] = true ∧
    freshBatchId "p1" [] = true ∧
    removePayment { id := "p1", createdAt := "T" }
      (createPayment "p1" "T" tstream [itemA] [itemA, itemB] []).1
      (createPayment "p1" "T" tstream [itemA] [itemA, itemB] []).2 =
      ([itemA, itemB], []) :=
  ⟨by decide, by decide, by decide, by decide,
    settle_then_reverse "p1" "T" tstream [itemA] [itemA, itemB] []
      (by decide) (by decide) (by decide) (by decide)⟩

lemma intercalate_csvFields (p : PaymentBatch) (it : Item) :
    String.intercalate "," (csvFields p it) = specRowCSV p it := by
  obtain ⟨u, ty, d, pc, ul, pa, pi⟩ := it
  cases ul <;> cases pa <;> rfl

lemma csvRows_eq_spec (p : PaymentBatch) :
    ∀ items : List Item,
      (csvDataRows p items).map (String.intercalate ",") =
        items.flatMap fun it =>
          if it.paymentId = some p.id then [specRowCSV p it] else [] := by
  intro items
  induction items with
  | nil => rfl
  | cons it rest ih =>
    simp only [csvDataRows, List.filter_cons, List.flatMap_cons] at *
    by_cases h : it.paymentId = some p.id
    · rw [if_pos (by simpa using h), if_pos h]
      simp only [List.map_cons, intercalate_csvFields, List.singleton_append]
      exact congrArg (List.cons (specRowCSV p it)) ih
    · rw [if_neg (by simpa using h), if_neg h, List.nil_append]
      exact ih

/-- Claim C8 (amended): `shareCSV` produces the header row
`type,prijs_cents,datum,user,betaald_op,batch_id` followed by one data row per
item whose `paymentId` equals the batch's id, fields in the order type,
priceCents, date, label, paidAt, batch id, with an absent label or paidAt
rendered as the empty string — i.e. it equals the spec-modelled `specCSV`. -/
theorem shareCSV_spec (p : PaymentBatch) (items : List Item) :
    shareCSV p items = specCSV p items := by
  rw [shareCSV, specCSV, csvRows_eq_spec]
  rfl

/-- Claim C8 counterexample: the header the code writes is the Dutch
`type,prijs_cents,datum,user,betaald_op,batch_id`, not the claimed
`type,price_cents,date,user,paid_at,batch_id` — even for an empty item
collection the produced text differs from the claimed header row. -/
theorem shareCSV_header_counterexample :
    shareCSV batchB [] ≠ "type,price_cents,date,user,paid_at,batch_id" := by
  decide

lemma foldl_priceCents (l : List Item) :
    ∀ n : Nat, l.foldl (fun a b => a + b.priceCents) n =
      n + (l.map Item.priceCents).sum := by
  induction l with
  | nil => intro n; simp
  | cons it rest ih =>
    intro n
    rw [List.foldl_cons, ih, List.map_cons, List.sum_cons]
    omega

/-- Claim C9: the `price_cents` column of the CSV data rows denotes exactly
the prices of the batch's items, and those numbers sum to
`totalFor(batch, items)`. -/
theorem csv_sum_eq_totalFor (p : PaymentBatch) (items : List Item) :
    ∃ ns : List Nat,
      (csvDataRows p items).map (fun r => r.getD 1 "") = ns.map Nat.repr ∧
      ns.sum = totalFor p items := by
  refine ⟨(items.filter fun it => it.paymentId == some p.id).map Item.priceCents,
    ?_, ?_⟩
  · rw [csvDataRows, List.map_map, List.map_map]
    rfl
  · rw [totalFor, foldl_priceCents, Nat.zero_add]

lemma clearPaid_no_refs (id : String) :
    ∀ items : List Item, referencesBatch id items = false →
      clearPaid id items = items := by
  intro items h
  induction items with
  | nil => rfl
  | cons it rest ih =>
    rw [referencesBatch, List.any_cons, Bool.or_eq_false_iff] at h
    rw [clearPaid, List.map_cons, if_neg (by simp [h.1])]
    exact congrArg (List.cons it) (ih h.2)

lemma clearPaid_idem (id : String) (items : List Item) :
    clearPaid id (clearPaid id items) = clearPaid id items := by
  simp only [clearPaid, List.map_map]
  induction items with
  | nil => rfl
  | cons it rest ih =>
    simp only [List.map_cons]
    refine congrArg₂ List.cons ?_ ih
    by_cases h : (it.paymentId == some id) = true
    · rw [Function.comp_apply, if_pos h, if_neg (by simp)]
    · rw [Function.comp_apply, if_neg h, if_neg h]

/-- Claim C10 (amended): reversing a batch whose id is absent from the batch
collection leaves the batch collection unchanged, and leaves the item
collection unchanged provided no item references that id; since a first
reverse removes the batch and clears every reference, a second reverse of the
same batch always changes nothing (reverse is idempotent). -/
theorem reverse_absent (p : PaymentBatch) (items : List Item)
    (payments : List PaymentBatch) :
    (batchAbsent p.id payments = true → (removePayment p items payments).2 = payments) ∧
    (referencesBatch p.id items = false → (removePayment p items payments).1 = items) ∧
    removePayment p (removePayment p items payments).1
      (removePayment p items payments).2 = removePayment p items payments := by
  refine ⟨?_, ?_, ?_⟩
  · intro h
    exact List.filter_eq_self.mpr fun b hb => List.all_eq_true.mp h b hb
  · intro h
    exact clearPaid_no_refs p.id items h
  · rw [removePayment, removePayment, Prod.mk.injEq]
    refine ⟨clearPaid_idem p.id items, ?_⟩
    exact List.filter_eq_self.mpr fun b hb => (List.mem_filter.mp hb).2

/-- Claim C10 witness: at a concrete state with id "b" absent from the batch
collection and unreferenced by the items, reverse returns both collections
unchanged, by the theorem. -/
theorem reverse_absent_witness :
    batchAbsent "b" ([] : List PaymentBatch) = true ∧
    referencesBatch "b" [itemA] = false ∧
    removePayment batchB [itemA] [] = ([itemA], []) :=
  ⟨by decide, by decide,
    Prod.ext ((reverse_absent batchB [itemA] []).2.1 (by decide))
      ((reverse_absent batchB [itemA] []).1 (by decide))⟩

/-- Claim C10 counterexample: with the item collection `[itemP]` (an item
referencing batch id "b") and the empty batch collection, "b" is absent from
the batch collection, yet reverse on that id is not a no-op — it clears the
item's paid fields, so the item collection changes. -/
theorem reverse_absent_counterexample :
    removePayment batchB [itemP] [] ≠ ([itemP], ([] : List PaymentBatch)) := by
  decide

end ConsumptieTracker
